import Mathlib

set_option maxRecDepth 8192

/-!
Verification development for the invapi MCP server (TypeScript sources in
`src/`).  The repository is a thin protocol adapter: zod input schemas, an
axios-based HTTP client (`src/api-client.ts`) with an error classifier
`handleApiError`, and five groups of MCP tool handlers.  We embed the
handler-level logic shallowly: JavaScript exceptions become an explicit
`JsError` type, fallible steps live in `Except JsError`, the network and the
filesystem are oracles packaged in an `Env` record, and each handler's
`try/catch` wrapper is the total function `runTool`.
-/

/-- A JSON value, modelling the `unknown` payloads flowing through the
handlers.  Numbers are modelled as integers: no claim depends on numeric
formatting. -/
inductive Json where
  | null : Json
  | bool (b : Bool) : Json
  | num (n : Int) : Json
  | str (s : String) : Json
  | arr (xs : List Json) : Json
  | obj (fields : List (String × Json)) : Json

mutual

/-- Models the JavaScript builtin `JSON.stringify(x, null, 2)`.  The exact
whitespace layout of the pretty-printer and the escaping of exotic characters
are abstracted (no claim inspects them); structure and field order are kept. -/
def jsonStringify : Json → String
  | .null => "null"
  | .bool true => "true"
  | .bool false => "false"
  | .num n => toString n
  | .str s => "\"" ++ s ++ "\""
  | .arr xs => "[" ++ jsonStringifyList xs ++ "]"
  | .obj fields => "\x7b" ++ jsonStringifyFields fields ++ "\x7d"

/-- Comma-separated rendering of a JSON array's elements. -/
def jsonStringifyList : List Json → String
  | [] => ""
  | [x] => jsonStringify x
  | x :: xs => jsonStringify x ++ "," ++ jsonStringifyList xs

/-- Comma-separated rendering of a JSON object's fields. -/
def jsonStringifyFields : List (String × Json) → String
  | [] => ""
  | [(k, v)] => "\"" ++ k ++ "\":" ++ jsonStringify v
  | (k, v) :: fs => "\"" ++ k ++ "\":" ++ jsonStringify v ++ "," ++ jsonStringifyFields fs

end

/-- Models the JavaScript `Array.prototype.join(sep)` used as `lines.join("\n")`. -/
def joinWith (sep : String) : List String → String
  | [] => ""
  | [a] => a
  | a :: rest => a ++ sep ++ joinWith sep rest

/-- JavaScript truthiness of an optional string argument: `undefined` and the
empty string are falsy, every other string is truthy. -/
def strTruthy : Option String → Bool
  | none => false
  | some s => s != ""

/-- Whether `pat` occurs as a substring at any position of the character
list. -/
def occursInChars (pat : List Char) : List Char → Bool
  | [] => pat.isEmpty
  | c :: rest => pat.isPrefixOf (c :: rest) || occursInChars pat rest

/-- Whether `pat` occurs as a substring of `s`. -/
def occursIn (pat s : String) : Bool :=
  occursInChars pat.data s.data

-- ── Error model (src/api-client.ts) ──

/-- One entry of the structured 400-response error list
(`data.data.errors` in `src/api-client.ts`). -/
structure FieldError where
  path : Option String
  message : Option String
deriving DecidableEq, Repr

/-- The nested `data` wrapper inside an API error body. -/
structure ErrorDetails where
  errors : Option (List FieldError)
deriving DecidableEq, Repr

/-- The parsed body of an HTTP error response (`ApiErrorData` in
`src/api-client.ts`); every field is optional. -/
structure ApiErrorData where
  message : Option String
  statusMessage : Option String
  data : Option ErrorDetails
deriving DecidableEq, Repr

/-- An axios HTTP response attached to a failure: a status code and an
optionally-parsed body. -/
structure AxiosResponse where
  status : Nat
  data : Option ApiErrorData
deriving DecidableEq, Repr

/-- A JavaScript failure value as classified by `handleApiError`:
an `AxiosError` (optional response, optional error code, message),
a plain `Error` with a message, or a thrown non-Error value rendered
via `String(...)`. -/
inductive JsError where
  | axios (response : Option AxiosResponse) (code : Option String) (message : String)
  | error (message : String)
  | thrown (display : String)
deriving DecidableEq, Repr

/-- The field-error list reachable as `data?.data?.errors` on a response. -/
def AxiosResponse.fieldErrors (resp : AxiosResponse) : Option (List FieldError) :=
  (resp.data.bind ApiErrorData.data).bind ErrorDetails.errors

/-- One rendered line of the 400-validation block: path then message, with
the source's fallbacks of "unknown" and "invalid". -/
def fieldErrorLine (e : FieldError) : String :=
  "  - " ++ e.path.getD "unknown" ++ ": " ++ e.message.getD "invalid"

/-- `handleApiError` from `src/api-client.ts`: maps an arbitrary failure to a
human-readable message.  Mirrors the source's branch order: structured 400
body, canned 401/402/429, generic HTTP error, network codes without a
response, and the final `Error: <message>` fallback. -/
def handleApiError (err : JsError) : String :=
  match err with
  | .axios (some resp) _ _ =>
    if resp.status = 400 ∧ resp.fieldErrors.isSome then
      "Validation failed (400):\n" ++
        joinWith "\n" ((resp.fieldErrors.getD []).map fieldErrorLine)
    else if resp.status = 401 then
      "Error: Authentication failed. Ensure INVAPI_API_KEY is set correctly."
    else if resp.status = 402 then
      "Error: Insufficient credits. Top up your account at https://invapi.org."
    else if resp.status = 429 then
      "Error: Rate limit exceeded. Wait a moment and retry."
    else
      let msg := ((resp.data.bind ApiErrorData.message).orElse
        fun _ => resp.data.bind ApiErrorData.statusMessage).getD "Unknown error"
      "API error (" ++ toString resp.status ++ "): " ++ msg
  | .axios none code message =>
    if code = some "ECONNABORTED" then
      "Error: Request timed out. The file may be too large or the server is busy."
    else if code = some "ENOTFOUND" then
      "Error: Cannot reach api.invapi.org. Check your internet connection."
    else
      "Error: " ++ message
  | .error message => "Error: " ++ message
  | .thrown display => "Error: " ++ display

-- ── MCP tool-result model ──

/-- One content item of an MCP tool result (always of type "text" here). -/
structure ToolContent where
  type : String
  text : String
deriving DecidableEq, Repr

/-- An MCP tool result: a content array plus the error flag. -/
structure ToolResult where
  content : List ToolContent
  isError : Bool := false
deriving DecidableEq, Repr

/-- Convenience constructor for a text content item. -/
def textContent (s : String) : ToolContent := { type := "text", text := s }

/-- The result every handler's catch clause produces:
the classifier's text, marked as an error. -/
def errorResult (e : JsError) : ToolResult :=
  { content := [textContent (handleApiError e)], isError := true }

/-- Fallible handler computations: JavaScript exceptions become
`Except.error`. -/
abbrev Exc (α : Type) := Except JsError α

/-- The uniform `try/catch` wrapper around every tool handler's body: a normal
return passes through, a raised failure becomes `errorResult`.  This is the
only exception barrier in the handlers. -/
def runTool (body : Exc ToolResult) : ToolResult :=
  match body with
  | .ok r => r
  | .error e => errorResult e

-- ── Buffers and file helpers (src/api-client.ts) ──

/-- A Node.js `Buffer`: a byte sequence (each entry < 256). -/
structure Buffer where
  bytes : List Nat
deriving DecidableEq, Repr

/-- `Buffer.from(s, "utf-8")`. -/
def Buffer.fromUtf8 (s : String) : Buffer :=
  { bytes := s.toUTF8.toList.map UInt8.toNat }

/-- The standard base64 alphabet. -/
def base64Alphabet : List Char :=
  "ABCDEFGHIJKLMNOPQRSTUVWXYZabcdefghijklmnopqrstuvwxyz0123456789+/".toList

/-- The base64 digit for a 6-bit value. -/
def base64Char (n : Nat) : Char := base64Alphabet.getD n (Char.ofNat 65)

/-- Models `buffer.toString("base64")`: standard base64 with padding. -/
def base64Encode : List Nat → String
  | [] => ""
  | [a] =>
    String.mk [base64Char (a / 4 % 64), base64Char (a % 4 * 16)] ++ "=="
  | [a, b] =>
    String.mk [base64Char (a / 4 % 64), base64Char (a % 4 * 16 + b / 16 % 16),
      base64Char (b % 16 * 4)] ++ "="
  | a :: b :: c :: rest =>
    String.mk [base64Char (a / 4 % 64), base64Char (a % 4 * 16 + b / 16 % 16),
      base64Char (b % 16 * 4 + c / 64 % 4), base64Char (c % 64)] ++ base64Encode rest

/-- `getFileName` from `src/api-client.ts` (Node's `path.basename`). -/
def getFileName (filePath : String) : String :=
  (filePath.splitOn "/").getLastD ""

/-- Node's `path.extname`: the final dot-suffix of the last path component,
empty for dotfiles and extension-less names. -/
def extname (filePath : String) : String :=
  let base := getFileName filePath
  match base.splitOn "." with
  | [] => ""
  | [_] => ""
  | first :: rest =>
    if first = "" && rest.length = 1 then ""
    else "." ++ rest.getLastD ""

/-- `getContentType` from `src/api-client.ts`: extension-driven MIME lookup
with the octet-stream fallback. -/
def getContentType (filePath : String) : String :=
  let ext := (extname filePath).toLower
  if ext = ".pdf" then "application/pdf"
  else if ext = ".png" then "image/png"
  else if ext = ".jpg" then "image/jpeg"
  else if ext = ".jpeg" then "image/jpeg"
  else if ext = ".gif" then "image/gif"
  else if ext = ".bmp" then "image/bmp"
  else if ext = ".tiff" then "image/tiff"
  else if ext = ".tif" then "image/tiff"
  else if ext = ".webp" then "image/webp"
  else if ext = ".xml" then "application/xml"
  else "application/octet-stream"

-- ── Typed response shapes the handlers expect ──

/-- One message of a validation-endpoint error list
(`src/tools/validation.ts`). -/
structure ValidationMessage where
  message : String
deriving DecidableEq, Repr

/-- A validation-endpoint response: `{valid, errors?}`. -/
structure ValidationResult where
  valid : Bool
  errors : Option (List ValidationMessage)
deriving DecidableEq, Repr

/-- One per-operation entry of a batch response
(`src/unnamed/part_000`): `{id, success, output?, error?}`. -/
structure BatchResultEntry where
  id : String
  success : Bool
  output : Option Json
  error : Option String

/-- The summary block of a batch response. -/
structure BatchSummary where
  total : Nat
  successful : Nat
  failed : Nat
  processing_time_ms : Nat
deriving DecidableEq, Repr

/-- A batch-convert response: per-operation results plus a summary. -/
structure BatchResult where
  results : List BatchResultEntry
  summary : BatchSummary

/-- The four credit counters of a user-info response
(`src/tools/user.ts`), each optional. -/
structure UserCredits where
  extraction : Option Int
  conversion : Option Int
  validation : Option Int
  qr : Option Int
deriving DecidableEq, Repr

/-- A user-info response: `{email, role, credits}`. -/
structure UserInfo where
  email : String
  role : String
  credits : UserCredits
deriving DecidableEq, Repr

-- ── Effect environment ──

/-- The oracles a handler interacts with: the filesystem helpers and the
Transport Layer functions of `src/api-client.ts`.  Each transport field is
typed with the response shape the calling handler casts the JSON payload to
(the TypeScript generics are unchecked casts, so the oracle delivers the
typed value directly).  Every field may fail with a `JsError`. -/
structure Env where
  readFileAsString : String → Exc String
  readFileAsBuffer : String → Exc Buffer
  saveBinaryFile : String → Buffer → Exc Unit
  postJsonGetText : String → Json → Exc String
  postJsonGetBinary : String → Json → Exc Buffer
  postXmlGetJson : String → String → Exc Json
  postBinaryGetJson : String → Buffer → String → Exc Json
  postXmlValidate : String → String → Exc ValidationResult
  postJsonGetJson : String → Json → Exc Json
  postBatchConvert : String → Json → Exc BatchResult
  getUser : String → Exc UserInfo

-- ── Shared handler pieces ──

/-- The local precondition failure returned (not thrown) by every XML-input
tool when no usable content was resolved. -/
def provideEitherResult : ToolResult :=
  { content := [textContent "Error: Provide either \x27xml\x27 or \x27file_path\x27."],
    isError := true }

/-- `resolveXmlInput` from `src/tools/validation.ts`: the inline `xml` wins
when truthy (non-empty), else a truthy `file_path` is read from disk, else
no content. -/
def resolveXmlInput (xml filePath : Option String) (env : Env) : Exc (Option String) :=
  if strTruthy xml then pure xml
  else
    match filePath with
    | some p =>
      if p = "" then pure none
      else do
        let c ← env.readFileAsString p
        pure (some c)
    | none => pure none

-- ── Conversion tool handler bodies (src/tools/conversion.ts) ──

/-- Body of `invapi_convert_json_to_ubl`: POST the invoice, then either save
the XML to the (truthy) output path and confirm, or return the XML inline. -/
def jsonToUblBody (invoice : Json) (outputPath : Option String) (env : Env) : Exc ToolResult := do
  let xml ← env.postJsonGetText "/api/v1/json/ubl" invoice
  match outputPath with
  | some path =>
    if path = "" then
      pure { content := [textContent xml] }
    else do
      let _ ← env.saveBinaryFile path (Buffer.fromUtf8 xml)
      pure { content := [textContent ("UBL XML saved to " ++ path)] }
  | none => pure { content := [textContent xml] }

/-- Body of `invapi_convert_json_to_cii`: as for UBL with the CII endpoint. -/
def jsonToCiiBody (invoice : Json) (outputPath : Option String) (env : Env) : Exc ToolResult := do
  let xml ← env.postJsonGetText "/api/v1/json/cii" invoice
  match outputPath with
  | some path =>
    if path = "" then
      pure { content := [textContent xml] }
    else do
      let _ ← env.saveBinaryFile path (Buffer.fromUtf8 xml)
      pure { content := [textContent ("CII XML saved to " ++ path)] }
  | none => pure { content := [textContent xml] }

/-- Body of `invapi_convert_ubl_to_json`: `xml ?? (file_path ? read : null)`,
the falsy-content guard, then the XML POST and pretty-printed JSON. -/
def ublToJsonBody (xml filePath : Option String) (env : Env) : Exc ToolResult := do
  let xmlContent : Option String ←
    match xml with
    | some s => pure (some s)
    | none =>
      match filePath with
      | some p =>
        if p = "" then pure none
        else do
          let c ← env.readFileAsString p
          pure (some c)
      | none => pure none
  match xmlContent with
  | none => pure provideEitherResult
  | some c =>
    if c = "" then pure provideEitherResult
    else do
      let result ← env.postXmlGetJson "/api/v1/ubl/json" c
      pure { content := [textContent (jsonStringify result)] }

/-- Body of `invapi_convert_cii_to_json`: as for UBL with the CII endpoint. -/
def ciiToJsonBody (xml filePath : Option String) (env : Env) : Exc ToolResult := do
  let xmlContent : Option String ←
    match xml with
    | some s => pure (some s)
    | none =>
      match filePath with
      | some p =>
        if p = "" then pure none
        else do
          let c ← env.readFileAsString p
          pure (some c)
      | none => pure none
  match xmlContent with
  | none => pure provideEitherResult
  | some c =>
    if c = "" then pure provideEitherResult
    else do
      let result ← env.postXmlGetJson "/api/v1/cii/json" c
      pure { content := [textContent (jsonStringify result)] }

/-- Body of `invapi_convert_json_to_xlsx`: POST the invoice array, save the
binary, confirm with the invoice count. -/
def jsonToXlsxBody (invoices : List Json) (outputPath : String) (env : Env) : Exc ToolResult := do
  let buffer ← env.postJsonGetBinary "/api/v1/json/xlsx"
    (Json.obj [("invoices", Json.arr invoices)])
  let _ ← env.saveBinaryFile outputPath buffer
  let n := invoices.length
  pure { content := [textContent
    ("Excel file saved to " ++ outputPath ++ " (" ++ toString n ++ " invoice(s))")] }

/-- Body of `invapi_create_zugferd_pdf`: read the source PDF, wrap it as
base64 with the invoice, POST, save the resulting PDF. -/
def createZugferdBody (pdfPath : String) (invoice : Json) (outputPath : String)
    (env : Env) : Exc ToolResult := do
  let pdfBuffer ← env.readFileAsBuffer pdfPath
  let requestBody := Json.obj [
    ("file", Json.obj [
      ("content", Json.str (base64Encode pdfBuffer.bytes)),
      ("contentType", Json.str "application/pdf"),
      ("fileName", Json.str (getFileName pdfPath))]),
    ("invoice", invoice)]
  let resultBuffer ← env.postJsonGetBinary "/api/v1/json/zugferd" requestBody
  let _ ← env.saveBinaryFile outputPath resultBuffer
  pure { content := [textContent ("ZUGFeRD PDF saved to " ++ outputPath)] }

/-- Body of `invapi_convert_zugferd_to_json`: read the PDF, POST it as binary,
pretty-print the JSON response. -/
def zugferdToJsonBody (filePath : String) (env : Env) : Exc ToolResult := do
  let buffer ← env.readFileAsBuffer filePath
  let result ← env.postBinaryGetJson "/api/v1/zugferd/json" buffer "application/pdf"
  pure { content := [textContent (jsonStringify result)] }

-- ── Validation tool handler bodies (src/tools/validation.ts) ──

/-- `formatValidationResult` from `src/tools/validation.ts`: one pass line, or
a failure header with one line per message, or the unknown-error fallback. -/
def formatValidationResult (result : ValidationResult) : String :=
  if result.valid then
    "Validation passed: The invoice is valid."
  else
    let lines := ["Validation failed:"]
    let lines :=
      match result.errors with
      | some errs =>
        if errs.length != 0 then
          lines ++ errs.map (fun err => "  - " ++ err.message)
        else
          lines ++ ["  - Unknown validation error"]
      | none => lines ++ ["  - Unknown validation error"]
    joinWith "\n" lines

/-- Body of `invapi_validate_ubl`: resolve the XML input, guard falsy content,
POST and format the validation narrative. -/
def validateUblBody (xml filePath : Option String) (env : Env) : Exc ToolResult := do
  let xmlContent ← resolveXmlInput xml filePath env
  match xmlContent with
  | none => pure provideEitherResult
  | some c =>
    if c = "" then pure provideEitherResult
    else do
      let result ← env.postXmlValidate "/api/v1/ubl/validate" c
      pure { content := [textContent (formatValidationResult result)] }

/-- Body of `invapi_validate_cii`. -/
def validateCiiBody (xml filePath : Option String) (env : Env) : Exc ToolResult := do
  let xmlContent ← resolveXmlInput xml filePath env
  match xmlContent with
  | none => pure provideEitherResult
  | some c =>
    if c = "" then pure provideEitherResult
    else do
      let result ← env.postXmlValidate "/api/v1/cii/validate" c
      pure { content := [textContent (formatValidationResult result)] }

/-- Body of `invapi_validate_xml` (auto-detected format). -/
def validateXmlBody (xml filePath : Option String) (env : Env) : Exc ToolResult := do
  let xmlContent ← resolveXmlInput xml filePath env
  match xmlContent with
  | none => pure provideEitherResult
  | some c =>
    if c = "" then pure provideEitherResult
    else do
      let result ← env.postXmlValidate "/api/v1/xml/validate" c
      pure { content := [textContent (formatValidationResult result)] }

-- ── Extraction tool handler bodies (src/tools/extraction.ts) ──

/-- Body of `invapi_extract_invoice`: read the file, build the request with
the optional qr/parties/instructions/categories fields (added only when
truthy/non-empty, as in the source), POST and pretty-print. -/
def extractInvoiceBody (filePath : String) (qr : Bool) (parties : Option (List Json))
    (instructions : Option String) (categories : Option (List Json))
    (env : Env) : Exc ToolResult := do
  let buffer ← env.readFileAsBuffer filePath
  let contentType := getContentType filePath
  let fileName := getFileName filePath
  let fields := [("file", Json.obj [
    ("content", Json.str (base64Encode buffer.bytes)),
    ("contentType", Json.str contentType),
    ("fileName", Json.str fileName)])]
  let fields := if qr then fields ++ [("qr", Json.bool true)] else fields
  let fields :=
    match parties with
    | some ps => if ps.length != 0 then fields ++ [("parties", Json.arr ps)] else fields
    | none => fields
  let fields :=
    if strTruthy instructions then
      fields ++ [("instructions", Json.str (instructions.getD ""))]
    else fields
  let fields :=
    match categories with
    | some cs => if cs.length != 0 then fields ++ [("categories", Json.arr cs)] else fields
    | none => fields
  let result ← env.postJsonGetJson "/api/v1/file/json" (Json.obj fields)
  pure { content := [textContent (jsonStringify result)] }

/-- Body of `invapi_extract_qr`: read the image, POST the wrapped base64 file,
pretty-print the JSON response. -/
def extractQrBody (filePath : String) (env : Env) : Exc ToolResult := do
  let buffer ← env.readFileAsBuffer filePath
  let contentType := getContentType filePath
  let fileName := getFileName filePath
  let requestBody := Json.obj [("file", Json.obj [
    ("content", Json.str (base64Encode buffer.bytes)),
    ("contentType", Json.str contentType),
    ("fileName", Json.str fileName)])]
  let result ← env.postJsonGetJson "/api/v1/file/qr" requestBody
  pure { content := [textContent (jsonStringify result)] }

-- ── User tool handler body (src/tools/user.ts) ──

/-- A credit counter rendered as its number or the "N/A" fallback. -/
def creditDisplay (c : Option Int) : String :=
  match c with
  | some n => toString n
  | none => "N/A"

/-- Body of `invapi_get_user`: GET the user info and render the fixed
eight-line report. -/
def getUserBody (env : Env) : Exc ToolResult := do
  let user ← env.getUser "/api/v1/user"
  let lines := [
    "Email: " ++ user.email,
    "Role:  " ++ user.role,
    "",
    "Credits remaining:",
    "  Extraction: " ++ creditDisplay user.credits.extraction,
    "  Conversion: " ++ creditDisplay user.credits.conversion,
    "  Validation: " ++ creditDisplay user.credits.validation,
    "  QR:         " ++ creditDisplay user.credits.qr]
  pure { content := [textContent (joinWith "\n" lines)] }

-- ── Batch tool (src/unnamed/part_000) ──

/-- The five batch operation kinds of `BatchOperationSchema`
(`src/schemas.ts`). -/
inductive BatchOpKind where
  | json_to_ubl
  | json_to_cii
  | ubl_to_json
  | cii_to_json
  | zugferd_to_json
deriving DecidableEq, Repr

/-- The wire tag of a batch operation kind. -/
def BatchOpKind.tag : BatchOpKind → String
  | .json_to_ubl => "json_to_ubl"
  | .json_to_cii => "json_to_cii"
  | .ubl_to_json => "ubl_to_json"
  | .cii_to_json => "cii_to_json"
  | .zugferd_to_json => "zugferd_to_json"

/-- A schema-valid batch operation: caller-chosen id, operation kind, and the
untyped input payload (`BatchOperationSchema` in `src/schemas.ts`). -/
structure BatchOperation where
  id : String
  operation : BatchOpKind
  input : Json

/-- The JSON encoding of a batch operation as sent to the API. -/
def BatchOperation.toJson (op : BatchOperation) : Json :=
  Json.obj [("id", Json.str op.id), ("operation", Json.str op.operation.tag),
    ("input", op.input)]

/-- The `TypeError` JavaScript raises when `.slice` is called on `undefined`
(which is what `JSON.stringify(undefined, null, 2)` evaluates to). -/
def typeErrorSliceOfUndefined : JsError :=
  JsError.error "Cannot read properties of undefined (reading \x27slice\x27)"

/-- The success preview of one batch result entry: a string output is cut to
200 characters with an ellipsis marker, any other JSON value is stringified
and cut to 200 characters.  When `output` is absent, `JSON.stringify`
produces `undefined` and the `.slice` call throws; we model that raised
`TypeError`.  (JavaScript slices UTF-16 code units where `String.take`
counts code points; no claim depends on the cut point.) -/
def previewOf (output : Option Json) : Exc String :=
  match output with
  | some (Json.str s) => pure (s.take 200 ++ if 200 < s.length then "…" else "")
  | some j => pure ((jsonStringify j).take 200)
  | none => Except.error typeErrorSliceOfUndefined

/-- The top summary line of the batch rendering, built from the response's own
summary counts. -/
def batchHeader (s : BatchSummary) : String :=
  "Batch complete: " ++ toString s.successful ++ "/" ++ toString s.total ++
    " succeeded (" ++ toString s.processing_time_ms ++ "ms)"

/-- The rendering loop over the batch response entries, carrying the
accumulated `lines` array: each entry appends its own OK/FAILED line and a
blank line, exactly as the source's `for` loop pushes them. -/
def renderBatchLoop : List BatchResultEntry → List String → Exc (List String)
  | [], lines => pure lines
  | r :: rest, lines => do
    let lines ←
      if r.success then do
        let preview ← previewOf r.output
        pure (lines ++ ["[" ++ r.id ++ "] OK: " ++ preview])
      else
        pure (lines ++ ["[" ++ r.id ++ "] FAILED: " ++ r.error.getD "Unknown error"])
    renderBatchLoop rest (lines ++ [""])

/-- The full rendered line array of a batch response: header, blank line, then
the loop over the entries. -/
def batchLines (result : BatchResult) : Exc (List String) :=
  renderBatchLoop result.results [batchHeader result.summary, ""]

/-- Body of `invapi_batch_convert`: POST the operations, then render the
summary lines. -/
def batchConvertBody (operations : List BatchOperation) (env : Env) : Exc ToolResult := do
  let result ← env.postBatchConvert "/api/v1/batch/convert"
    (Json.obj [("operations", Json.arr (operations.map BatchOperation.toJson))])
  let lines ← batchLines result
  pure { content := [textContent (joinWith "\n" lines)] }

-- ── Registered handlers: each body under its try/catch wrapper ──

/-- Handler of `invapi_convert_json_to_ubl`. -/
def invapiConvertJsonToUbl (invoice : Json) (outputPath : Option String) (env : Env) : ToolResult :=
  runTool (jsonToUblBody invoice outputPath env)

/-- Handler of `invapi_convert_json_to_cii`. -/
def invapiConvertJsonToCii (invoice : Json) (outputPath : Option String) (env : Env) : ToolResult :=
  runTool (jsonToCiiBody invoice outputPath env)

/-- Handler of `invapi_convert_ubl_to_json`. -/
def invapiConvertUblToJson (xml filePath : Option String) (env : Env) : ToolResult :=
  runTool (ublToJsonBody xml filePath env)

/-- Handler of `invapi_convert_cii_to_json`. -/
def invapiConvertCiiToJson (xml filePath : Option String) (env : Env) : ToolResult :=
  runTool (ciiToJsonBody xml filePath env)

/-- Handler of `invapi_convert_json_to_xlsx`. -/
def invapiConvertJsonToXlsx (invoices : List Json) (outputPath : String) (env : Env) : ToolResult :=
  runTool (jsonToXlsxBody invoices outputPath env)

/-- Handler of `invapi_create_zugferd_pdf`. -/
def invapiCreateZugferdPdf (pdfPath : String) (invoice : Json) (outputPath : String)
    (env : Env) : ToolResult :=
  runTool (createZugferdBody pdfPath invoice outputPath env)

/-- Handler of `invapi_convert_zugferd_to_json`. -/
def invapiConvertZugferdToJson (filePath : String) (env : Env) : ToolResult :=
  runTool (zugferdToJsonBody filePath env)

/-- Handler of `invapi_validate_ubl`. -/
def invapiValidateUbl (xml filePath : Option String) (env : Env) : ToolResult :=
  runTool (validateUblBody xml filePath env)

/-- Handler of `invapi_validate_cii`. -/
def invapiValidateCii (xml filePath : Option String) (env : Env) : ToolResult :=
  runTool (validateCiiBody xml filePath env)

/-- Handler of `invapi_validate_xml`. -/
def invapiValidateXml (xml filePath : Option String) (env : Env) : ToolResult :=
  runTool (validateXmlBody xml filePath env)

/-- Handler of `invapi_extract_invoice`. -/
def invapiExtractInvoice (filePath : String) (qr : Bool) (parties : Option (List Json))
    (instructions : Option String) (categories : Option (List Json)) (env : Env) : ToolResult :=
  runTool (extractInvoiceBody filePath qr parties instructions categories env)

/-- Handler of `invapi_extract_qr`. -/
def invapiExtractQr (filePath : String) (env : Env) : ToolResult :=
  runTool (extractQrBody filePath env)

/-- Handler of `invapi_get_user`. -/
def invapiGetUser (env : Env) : ToolResult :=
  runTool (getUserBody env)

/-- Handler of `invapi_batch_convert`. -/
def invapiBatchConvert (operations : List BatchOperation) (env : Env) : ToolResult :=
  runTool (batchConvertBody operations env)

-- ── Declared input-schema length constraint of the batch tool ──

/-- zod's `z.array(el).min(lo).max(hi)` length acceptance, applied to an array
whose elements already parsed. -/
def zodArrayLengthOk (lo hi : Nat) (xs : List α) : Bool :=
  lo ≤ xs.length && xs.length ≤ hi

/-- The declared `operations` constraint of `invapi_batch_convert`:
`z.array(BatchOperationSchema).min(1).max(100)`. -/
def batchInputAccepted (operations : List BatchOperation) : Bool :=
  zodArrayLengthOk 1 100 operations

/-- The host runtime's rejection when tool arguments fail the declared input
schema; the handler is never invoked.  The exact wording of the runtime's
message is external to this repository. -/
def schemaRejection : ToolResult :=
  { content := [textContent
      "Invalid arguments: operations must contain between 1 and 100 elements"],
    isError := true }

/-- Host-runtime dispatch of the batch tool: the declared input schema is
checked before the handler runs; on rejection the handler (and hence the
network oracle) is never consulted. -/
def dispatchBatchConvert (operations : List BatchOperation) (env : Env) : ToolResult :=
  if batchInputAccepted operations then invapiBatchConvert operations env
  else schemaRejection

-- ── Helper lemmas ──

/-- A string append whose left part is non-empty is non-empty. -/
theorem append_ne_empty_left (a b : String) (ha : a ≠ "") : a ++ b ≠ "" := by
  intro h
  apply ha
  have hd : (a ++ b).data = List.nil := congrArg String.data h
  rw [String.data_append] at hd
  exact String.ext (List.append_eq_nil.mp hd).1

/-- Joining a line list whose first line is non-empty gives a non-empty
string. -/
theorem joinWith_head_ne_empty (sep a : String) (l : List String) (ha : a ≠ "") :
    joinWith sep (a :: l) ≠ "" := by
  cases l with
  | nil => simpa [joinWith] using ha
  | cons b rest =>
    show a ++ sep ++ joinWith sep (b :: rest) ≠ ""
    exact append_ne_empty_left _ _ (append_ne_empty_left _ _ ha)

-- ── Claims C3, C4, C5: formatter and classifier shapes ──

/-- C3: for every validation-endpoint response, the formatter renders a single
pass line when `valid` is true; a failure block listing every error message in
the array's order when `valid` is false with a non-empty error list; a
non-empty fallback line when `valid` is false with an empty or missing error
list — and the output is never empty. -/
theorem claim_C3_validation_formatting (r : ValidationResult) :
    (r.valid = true → formatValidationResult r = "Validation passed: The invoice is valid.") ∧
    (∀ errs, r.valid = false → r.errors = some errs → errs ≠ [] →
      formatValidationResult r =
        joinWith "\n" ("Validation failed:" :: errs.map (fun err => "  - " ++ err.message))) ∧
    (r.valid = false → (r.errors = none ∨ r.errors = some []) →
      formatValidationResult r = "Validation failed:\n  - Unknown validation error") ∧
    formatValidationResult r ≠ "" := by
  refine ⟨?_, ?_, ?_, ?_⟩
  · intro hv
    simp [formatValidationResult, hv]
  · intro errs hv herrs hne
    simp [formatValidationResult, hv, herrs, hne]
  · intro hv herrs
    rcases herrs with h | h <;> simp [formatValidationResult, hv, h] <;> rfl
  · by_cases hv : r.valid
    · simp [formatValidationResult, hv]
    · simp only [formatValidationResult, hv, if_neg, Bool.false_eq_true]
      cases herrs : r.errors with
      | none =>
        simp only []
        exact joinWith_head_ne_empty _ _ _ (by decide)
      | some errs =>
        by_cases hne : errs.length != 0 <;>
          simp [hne] <;>
          exact joinWith_head_ne_empty _ _ _ (by decide)

/-- Witness for C3 at a concrete failing response with two messages. -/
theorem claim_C3_witness :
    formatValidationResult
        { valid := false,
          errors := some [{ message := "X" }, { message := "Y" }] } =
      "Validation failed:\n  - X\n  - Y" := by
  have h := (claim_C3_validation_formatting
    { valid := false, errors := some [{ message := "X" }, { message := "Y" }] }).2.1
    [{ message := "X" }, { message := "Y" }] rfl rfl (by decide)
  rw [h]
  rfl

/-- C4: for every failure carrying an HTTP 400 response whose body contains a
structured field-error list, the classifier's output is the "Validation
failed" header followed by one line per listed error, each line prefixed with
the error's path (fallback "unknown") followed by its message (fallback
"invalid"). -/
theorem claim_C4_validation_400 (resp : AxiosResponse) (code : Option String)
    (message : String) (errs : List FieldError)
    (hstatus : resp.status = 400) (herrs : resp.fieldErrors = some errs) :
    handleApiError (JsError.axios (some resp) code message) =
      "Validation failed (400):\n" ++
        joinWith "\n" (errs.map (fun e =>
          "  - " ++ e.path.getD "unknown" ++ ": " ++ e.message.getD "invalid")) := by
  simp only [handleApiError, hstatus, herrs]
  rfl

/-- Witness for C4 at a concrete 400 response with two field errors, one of
them missing its path. -/
theorem claim_C4_witness :
    handleApiError (JsError.axios
      (some ⟨400, some ⟨none, none, some ⟨some [⟨some "seller.name", some "Required"⟩,
        ⟨none, some "Too small"⟩]⟩⟩⟩)
      none "Request failed with status code 400") =
      "Validation failed (400):\n  - seller.name: Required\n  - unknown: Too small" := by
  rw [claim_C4_validation_400
    ⟨400, some ⟨none, none, some ⟨some [⟨some "seller.name", some "Required"⟩,
      ⟨none, some "Too small"⟩]⟩⟩⟩
    none "Request failed with status code 400"
    [⟨some "seller.name", some "Required"⟩, ⟨none, some "Too small"⟩] rfl rfl]
  rfl

/-- C5: for every failure carrying an HTTP response with status 401, 402 or
429 and any body, the classifier's output is the fixed canned message for
that status — the body never influences the output. -/
theorem claim_C5_canned_statuses (status : Nat) (body : Option ApiErrorData)
    (code : Option String) (message : String)
    (h : status = 401 ∨ status = 402 ∨ status = 429) :
    handleApiError (JsError.axios (some ⟨status, body⟩) code message) =
      (if status = 401 then
        "Error: Authentication failed. Ensure INVAPI_API_KEY is set correctly."
      else if status = 402 then
        "Error: Insufficient credits. Top up your account at https://invapi.org."
      else
        "Error: Rate limit exceeded. Wait a moment and retry.") := by
  rcases h with h | h | h <;> subst h <;> simp [handleApiError]

/-- Witness for C5: a 402 response whose body even carries a field-error list
still yields the canned insufficient-credits message. -/
theorem claim_C5_witness :
    handleApiError (JsError.axios
      (some ⟨402, some ⟨some "try to distract the classifier", some "Payment Required",
        some ⟨some [⟨some "x", some "y"⟩]⟩⟩⟩)
      none "Request failed with status code 402") =
      "Error: Insufficient credits. Top up your account at https://invapi.org." := by
  rw [claim_C5_canned_statuses 402 _ none "Request failed with status code 402"
    (Or.inr (Or.inl rfl))]
  rfl

-- ── Claim C6: the classifier is total and reaches exactly one branch ──

/-- Whether a failure carries an HTTP response. -/
def errHasResponse : JsError → Bool
  | .axios (some _) _ _ => true
  | _ => false

/-- The condition of the structured-validation branch: a response with status
400 and a field-error list in its body. -/
def errIs400WithFieldErrors : JsError → Bool
  | .axios (some resp) _ _ => resp.status == 400 && resp.fieldErrors.isSome
  | _ => false

/-- The condition of the canned branch: a response with status 401, 402
or 429. -/
def errCannedStatus : JsError → Bool
  | .axios (some resp) _ _ =>
    resp.status == 401 || resp.status == 402 || resp.status == 429
  | _ => false

/-- The condition of the network branch: an axios failure with no response
and a timeout or host-not-found code. -/
def errNetworkNoResponse : JsError → Bool
  | .axios none code _ => code == some "ECONNABORTED" || code == some "ENOTFOUND"
  | _ => false

/-- Branch 1 of the classification order: structured 400 validation body. -/
def classifierBranch1 (e : JsError) : Bool := errIs400WithFieldErrors e

/-- Branch 2: canned status, not already in branch 1. -/
def classifierBranch2 (e : JsError) : Bool :=
  !classifierBranch1 e && errCannedStatus e

/-- Branch 3: any other failure that carries a response. -/
def classifierBranch3 (e : JsError) : Bool :=
  !classifierBranch1 e && !classifierBranch2 e && errHasResponse e

/-- Branch 4: no response, timeout or host-not-found code. -/
def classifierBranch4 (e : JsError) : Bool :=
  !classifierBranch1 e && !classifierBranch2 e && !classifierBranch3 e &&
    errNetworkNoResponse e

/-- Branch 5: the verbatim-message fallback. -/
def classifierBranch5 (e : JsError) : Bool :=
  !classifierBranch1 e && !classifierBranch2 e && !classifierBranch3 e &&
    !classifierBranch4 e

/-- C6: the Error Classifier is total over arbitrary failure values — every
failure satisfies exactly one of the five classification branch predicates,
and the classifier's output is never the empty string.  Non-raising is
inherent in the embedding: `handleApiError` is a total Lean function. -/
theorem claim_C6_classifier_total (e : JsError) :
    ([classifierBranch1 e, classifierBranch2 e, classifierBranch3 e,
      classifierBranch4 e, classifierBranch5 e].count true = 1) ∧
    handleApiError e ≠ "" := by
  constructor
  · simp only [classifierBranch1, classifierBranch2, classifierBranch3,
      classifierBranch4, classifierBranch5]
    generalize errIs400WithFieldErrors e = x
    generalize errCannedStatus e = y
    generalize errHasResponse e = z
    generalize errNetworkNoResponse e = w
    cases x <;> cases y <;> cases z <;> cases w <;> rfl
  · cases e with
    | axios response code message =>
      cases response with
      | none =>
        simp only [handleApiError]
        split
        · decide
        · split
          · decide
          · exact append_ne_empty_left _ _ (by decide)
      | some resp =>
        simp only [handleApiError]
        split
        · exact append_ne_empty_left _ _ (by decide)
        · split
          · decide
          · split
            · decide
            · split
              · decide
              · exact append_ne_empty_left _ _
                  (append_ne_empty_left _ _ (append_ne_empty_left _ _ (by decide)))
    | error message => exact append_ne_empty_left _ _ (by decide)
    | thrown display => exact append_ne_empty_left _ _ (by decide)

-- ── Test environments ──

/-- A fixed failure used by the default test environment. -/
def envBoomErr : JsError := JsError.error "boom"

/-- A deterministic environment in which every oracle fails; concrete test
environments override the fields they need. -/
def baseEnv : Env :=
  { readFileAsString := fun _ => .error envBoomErr,
    readFileAsBuffer := fun _ => .error envBoomErr,
    saveBinaryFile := fun _ _ => .error envBoomErr,
    postJsonGetText := fun _ _ => .error envBoomErr,
    postJsonGetBinary := fun _ _ => .error envBoomErr,
    postXmlGetJson := fun _ _ => .error envBoomErr,
    postBinaryGetJson := fun _ _ _ => .error envBoomErr,
    postXmlValidate := fun _ _ => .error envBoomErr,
    postJsonGetJson := fun _ _ => .error envBoomErr,
    postBatchConvert := fun _ _ => .error envBoomErr,
    getUser := fun _ => .error envBoomErr }

-- ── Claim C9: conversion output_path behaviour ──

/-- An environment whose JSON-to-XML conversion endpoint always returns a
fixed XML string and whose file save always succeeds. -/
def envC9 : Env :=
  { baseEnv with
    postJsonGetText := fun _ _ => .ok "<Invoice/>",
    saveBinaryFile := fun _ _ => .ok () }

/-- Counterexample to C9 as stated: with `output_path` supplied as the empty
string, the `json_to_ubl` handler returns the full XML inline (the source
tests `if (output_path)`, and the empty string is falsy), not a confirmation
message naming the path. -/
theorem claim_C9_counterexample :
    invapiConvertJsonToUbl Json.null (some "") envC9 =
      { content := [textContent "<Invoice/>"], isError := false } ∧
    occursIn "saved to" "<Invoice/>" = false := by
  constructor
  · rfl
  · rfl

/-- C9 (amended): for every successful JSON-to-UBL or JSON-to-CII conversion,
when a non-empty `output_path` is supplied and the save succeeds, the returned
content is exactly the confirmation message naming that path (hence no inline
XML); when `output_path` is omitted — or supplied as the empty string, which
the handler treats as absent — the returned content is the full converted XML
string. -/
theorem claim_C9_output_path (invoice : Json) (p xml : String) (env : Env) :
    (p ≠ "" →
     env.postJsonGetText "/api/v1/json/ubl" invoice = .ok xml →
     env.saveBinaryFile p (Buffer.fromUtf8 xml) = .ok () →
     invapiConvertJsonToUbl invoice (some p) env =
       { content := [textContent ("UBL XML saved to " ++ p)], isError := false }) ∧
    (env.postJsonGetText "/api/v1/json/ubl" invoice = .ok xml →
     invapiConvertJsonToUbl invoice none env =
       { content := [textContent xml], isError := false }) ∧
    (env.postJsonGetText "/api/v1/json/ubl" invoice = .ok xml →
     invapiConvertJsonToUbl invoice (some "") env =
       { content := [textContent xml], isError := false }) ∧
    (p ≠ "" →
     env.postJsonGetText "/api/v1/json/cii" invoice = .ok xml →
     env.saveBinaryFile p (Buffer.fromUtf8 xml) = .ok () →
     invapiConvertJsonToCii invoice (some p) env =
       { content := [textContent ("CII XML saved to " ++ p)], isError := false }) ∧
    (env.postJsonGetText "/api/v1/json/cii" invoice = .ok xml →
     invapiConvertJsonToCii invoice none env =
       { content := [textContent xml], isError := false }) ∧
    (env.postJsonGetText "/api/v1/json/cii" invoice = .ok xml →
     invapiConvertJsonToCii invoice (some "") env =
       { content := [textContent xml], isError := false }) := by
  refine ⟨?_, ?_, ?_, ?_, ?_, ?_⟩
  · intro hp happ hsave
    simp [invapiConvertJsonToUbl, runTool, jsonToUblBody, happ, hsave, hp,
      Bind.bind, Except.bind, pure, Except.pure]
  · intro happ
    simp [invapiConvertJsonToUbl, runTool, jsonToUblBody, happ,
      Bind.bind, Except.bind, pure, Except.pure]
  · intro happ
    simp [invapiConvertJsonToUbl, runTool, jsonToUblBody, happ,
      Bind.bind, Except.bind, pure, Except.pure]
  · intro hp happ hsave
    simp [invapiConvertJsonToCii, runTool, jsonToCiiBody, happ, hsave, hp,
      Bind.bind, Except.bind, pure, Except.pure]
  · intro happ
    simp [invapiConvertJsonToCii, runTool, jsonToCiiBody, happ,
      Bind.bind, Except.bind, pure, Except.pure]
  · intro happ
    simp [invapiConvertJsonToCii, runTool, jsonToCiiBody, happ,
      Bind.bind, Except.bind, pure, Except.pure]

/-- Witness for C9 at a concrete non-empty output path and a concrete
response. -/
theorem claim_C9_witness :
    invapiConvertJsonToUbl Json.null (some "out.xml") envC9 =
      { content := [textContent "UBL XML saved to out.xml"], isError := false } := by
  have h := (claim_C9_output_path Json.null "out.xml" "<Invoice/>" envC9).1
    (by decide) rfl rfl
  simpa using h

-- ── Claim C2: the "Provide either" precondition ──

/-- Characterization of the `invapi_convert_ubl_to_json` local error: the
handler returns the "Provide either" result exactly when the inline `xml` is
the empty string, or `xml` is absent and either no usable `file_path` is
given or the file reads back empty. -/
theorem ublToJsonBody_provide_either_iff (xml fp : Option String) (env : Env) :
    ublToJsonBody xml fp env = .ok provideEitherResult ↔
      xml = some "" ∨ (xml = none ∧ (strTruthy fp = false ∨
        ∃ p, fp = some p ∧ p ≠ "" ∧ env.readFileAsString p = .ok "")) := by
  rcases xml with _ | s
  · rcases fp with _ | p
    · simp [ublToJsonBody, strTruthy, Bind.bind, Except.bind, pure, Except.pure]
    · by_cases hp : p = ""
      · subst hp
        simp [ublToJsonBody, strTruthy, Bind.bind, Except.bind, pure, Except.pure]
      · cases hr : env.readFileAsString p with
        | error e =>
          simp [ublToJsonBody, strTruthy, hp, hr, Bind.bind, Except.bind, pure, Except.pure]
        | ok c =>
          by_cases hc : c = ""
          · subst hc
            simp [ublToJsonBody, strTruthy, hp, hr, Bind.bind, Except.bind, pure, Except.pure]
          · cases ha : env.postXmlGetJson "/api/v1/ubl/json" c <;>
              simp [ublToJsonBody, strTruthy, hp, hr, hc, ha, provideEitherResult,
                textContent, Bind.bind, Except.bind, pure, Except.pure]
  · by_cases hs : s = ""
    · subst hs
      simp [ublToJsonBody, Bind.bind, Except.bind, pure, Except.pure]
    · cases ha : env.postXmlGetJson "/api/v1/ubl/json" s <;>
        simp [ublToJsonBody, hs, ha, provideEitherResult, textContent,
          Bind.bind, Except.bind, pure, Except.pure]

/-- Same characterization for `invapi_convert_cii_to_json`. -/
theorem ciiToJsonBody_provide_either_iff (xml fp : Option String) (env : Env) :
    ciiToJsonBody xml fp env = .ok provideEitherResult ↔
      xml = some "" ∨ (xml = none ∧ (strTruthy fp = false ∨
        ∃ p, fp = some p ∧ p ≠ "" ∧ env.readFileAsString p = .ok "")) := by
  rcases xml with _ | s
  · rcases fp with _ | p
    · simp [ciiToJsonBody, strTruthy, Bind.bind, Except.bind, pure, Except.pure]
    · by_cases hp : p = ""
      · subst hp
        simp [ciiToJsonBody, strTruthy, Bind.bind, Except.bind, pure, Except.pure]
      · cases hr : env.readFileAsString p with
        | error e =>
          simp [ciiToJsonBody, strTruthy, hp, hr, Bind.bind, Except.bind, pure, Except.pure]
        | ok c =>
          by_cases hc : c = ""
          · subst hc
            simp [ciiToJsonBody, strTruthy, hp, hr, Bind.bind, Except.bind, pure, Except.pure]
          · cases ha : env.postXmlGetJson "/api/v1/cii/json" c <;>
              simp [ciiToJsonBody, strTruthy, hp, hr, hc, ha, provideEitherResult,
                textContent, Bind.bind, Except.bind, pure, Except.pure]
  · by_cases hs : s = ""
    · subst hs
      simp [ciiToJsonBody, Bind.bind, Except.bind, pure, Except.pure]
    · cases ha : env.postXmlGetJson "/api/v1/cii/json" s <;>
        simp [ciiToJsonBody, hs, ha, provideEitherResult, textContent,
          Bind.bind, Except.bind, pure, Except.pure]

/-- Characterization of the `invapi_validate_ubl` local error: the "Provide
either" result is returned exactly when the inline `xml` is empty or absent
and either no usable `file_path` is given or the file reads back empty. -/
theorem validateUblBody_provide_either_iff (xml fp : Option String) (env : Env) :
    validateUblBody xml fp env = .ok provideEitherResult ↔
      strTruthy xml = false ∧ (strTruthy fp = false ∨
        ∃ p, fp = some p ∧ p ≠ "" ∧ env.readFileAsString p = .ok "") := by
  rcases xml with _ | s
  · rcases fp with _ | p
    · simp [validateUblBody, resolveXmlInput, strTruthy,
        Bind.bind, Except.bind, pure, Except.pure]
    · by_cases hp : p = ""
      · subst hp
        simp [validateUblBody, resolveXmlInput, strTruthy,
          Bind.bind, Except.bind, pure, Except.pure]
      · cases hr : env.readFileAsString p with
        | error e =>
          simp [validateUblBody, resolveXmlInput, strTruthy, hp, hr,
            Bind.bind, Except.bind, pure, Except.pure]
        | ok c =>
          by_cases hc : c = ""
          · subst hc
            simp [validateUblBody, resolveXmlInput, strTruthy, hp, hr,
              Bind.bind, Except.bind, pure, Except.pure]
          · cases ha : env.postXmlValidate "/api/v1/ubl/validate" c <;>
              simp [validateUblBody, resolveXmlInput, strTruthy, hp, hr, hc, ha,
                provideEitherResult, textContent, Bind.bind, Except.bind, pure, Except.pure]
  · by_cases hs : s = ""
    · subst hs
      rcases fp with _ | p
      · simp [validateUblBody, resolveXmlInput, strTruthy,
          Bind.bind, Except.bind, pure, Except.pure]
      · by_cases hp : p = ""
        · subst hp
          simp [validateUblBody, resolveXmlInput, strTruthy,
            Bind.bind, Except.bind, pure, Except.pure]
        · cases hr : env.readFileAsString p with
          | error e =>
            simp [validateUblBody, resolveXmlInput, strTruthy, hp, hr,
              Bind.bind, Except.bind, pure, Except.pure]
          | ok c =>
            by_cases hc : c = ""
            · subst hc
              simp [validateUblBody, resolveXmlInput, strTruthy, hp, hr,
                Bind.bind, Except.bind, pure, Except.pure]
            · cases ha : env.postXmlValidate "/api/v1/ubl/validate" c <;>
                simp [validateUblBody, resolveXmlInput, strTruthy, hp, hr, hc, ha,
                  provideEitherResult, textContent, Bind.bind, Except.bind, pure, Except.pure]
    · cases ha : env.postXmlValidate "/api/v1/ubl/validate" s <;>
        simp [validateUblBody, resolveXmlInput, strTruthy, hs, ha, provideEitherResult,
          textContent, Bind.bind, Except.bind, pure, Except.pure]

/-- Characterization of the `invapi_validate_cii`. -/
theorem validateCiiBody_provide_either_iff (xml fp : Option String) (env : Env) :
    validateCiiBody xml fp env = .ok provideEitherResult ↔
      strTruthy xml = false ∧ (strTruthy fp = false ∨
        ∃ p, fp = some p ∧ p ≠ "" ∧ env.readFileAsString p = .ok "") := by
  rcases xml with _ | s
  · rcases fp with _ | p
    · simp [validateCiiBody, resolveXmlInput, strTruthy,
        Bind.bind, Except.bind, pure, Except.pure]
    · by_cases hp : p = ""
      · subst hp
        simp [validateCiiBody, resolveXmlInput, strTruthy,
          Bind.bind, Except.bind, pure, Except.pure]
      · cases hr : env.readFileAsString p with
        | error e =>
          simp [validateCiiBody, resolveXmlInput, strTruthy, hp, hr,
            Bind.bind, Except.bind, pure, Except.pure]
        | ok c =>
          by_cases hc : c = ""
          · subst hc
            simp [validateCiiBody, resolveXmlInput, strTruthy, hp, hr,
              Bind.bind, Except.bind, pure, Except.pure]
          · cases ha : env.postXmlValidate "/api/v1/cii/validate" c <;>
              simp [validateCiiBody, resolveXmlInput, strTruthy, hp, hr, hc, ha,
                provideEitherResult, textContent, Bind.bind, Except.bind, pure, Except.pure]
  · by_cases hs : s = ""
    · subst hs
      rcases fp with _ | p
      · simp [validateCiiBody, resolveXmlInput, strTruthy,
          Bind.bind, Except.bind, pure, Except.pure]
      · by_cases hp : p = ""
        · subst hp
          simp [validateCiiBody, resolveXmlInput, strTruthy,
            Bind.bind, Except.bind, pure, Except.pure]
        · cases hr : env.readFileAsString p with
          | error e =>
            simp [validateCiiBody, resolveXmlInput, strTruthy, hp, hr,
              Bind.bind, Except.bind, pure, Except.pure]
          | ok c =>
            by_cases hc : c = ""
            · subst hc
              simp [validateCiiBody, resolveXmlInput, strTruthy, hp, hr,
                Bind.bind, Except.bind, pure, Except.pure]
            · cases ha : env.postXmlValidate "/api/v1/cii/validate" c <;>
                simp [validateCiiBody, resolveXmlInput, strTruthy, hp, hr, hc, ha,
                  provideEitherResult, textContent, Bind.bind, Except.bind, pure, Except.pure]
    · cases ha : env.postXmlValidate "/api/v1/cii/validate" s <;>
        simp [validateCiiBody, resolveXmlInput, strTruthy, hs, ha, provideEitherResult,
          textContent, Bind.bind, Except.bind, pure, Except.pure]

/-- Characterization of the `invapi_validate_xml`. -/
theorem validateXmlBody_provide_either_iff (xml fp : Option String) (env : Env) :
    validateXmlBody xml fp env = .ok provideEitherResult ↔
      strTruthy xml = false ∧ (strTruthy fp = false ∨
        ∃ p, fp = some p ∧ p ≠ "" ∧ env.readFileAsString p = .ok "") := by
  rcases xml with _ | s
  · rcases fp with _ | p
    · simp [validateXmlBody, resolveXmlInput, strTruthy,
        Bind.bind, Except.bind, pure, Except.pure]
    · by_cases hp : p = ""
      · subst hp
        simp [validateXmlBody, resolveXmlInput, strTruthy,
          Bind.bind, Except.bind, pure, Except.pure]
      · cases hr : env.readFileAsString p with
        | error e =>
          simp [validateXmlBody, resolveXmlInput, strTruthy, hp, hr,
            Bind.bind, Except.bind, pure, Except.pure]
        | ok c =>
          by_cases hc : c = ""
          · subst hc
            simp [validateXmlBody, resolveXmlInput, strTruthy, hp, hr,
              Bind.bind, Except.bind, pure, Except.pure]
          · cases ha : env.postXmlValidate "/api/v1/xml/validate" c <;>
              simp [validateXmlBody, resolveXmlInput, strTruthy, hp, hr, hc, ha,
                provideEitherResult, textContent, Bind.bind, Except.bind, pure, Except.pure]
  · by_cases hs : s = ""
    · subst hs
      rcases fp with _ | p
      · simp [validateXmlBody, resolveXmlInput, strTruthy,
          Bind.bind, Except.bind, pure, Except.pure]
      · by_cases hp : p = ""
        · subst hp
          simp [validateXmlBody, resolveXmlInput, strTruthy,
            Bind.bind, Except.bind, pure, Except.pure]
        · cases hr : env.readFileAsString p with
          | error e =>
            simp [validateXmlBody, resolveXmlInput, strTruthy, hp, hr,
              Bind.bind, Except.bind, pure, Except.pure]
          | ok c =>
            by_cases hc : c = ""
            · subst hc
              simp [validateXmlBody, resolveXmlInput, strTruthy, hp, hr,
                Bind.bind, Except.bind, pure, Except.pure]
            · cases ha : env.postXmlValidate "/api/v1/xml/validate" c <;>
                simp [validateXmlBody, resolveXmlInput, strTruthy, hp, hr, hc, ha,
                  provideEitherResult, textContent, Bind.bind, Except.bind, pure, Except.pure]
    · cases ha : env.postXmlValidate "/api/v1/xml/validate" s <;>
        simp [validateXmlBody, resolveXmlInput, strTruthy, hs, ha, provideEitherResult,
          textContent, Bind.bind, Except.bind, pure, Except.pure]

/-- When inline xml is absent, `invapi_convert_ubl_to_json` reads the given
non-empty file path and uses its (non-empty) content as the request body. -/
theorem ublToJsonBody_reads_file (p c : String) (env : Env)
    (hp : p ≠ "") (hr : env.readFileAsString p = .ok c) (hc : c ≠ "") :
    ublToJsonBody none (some p) env =
      (env.postXmlGetJson "/api/v1/ubl/json" c).map
        (fun result => { content := [textContent (jsonStringify result)] }) := by
  cases ha : env.postXmlGetJson "/api/v1/ubl/json" c <;>
    simp [ublToJsonBody, hp, hr, hc, ha, Except.map, Bind.bind, Except.bind,
      pure, Except.pure]

/-- Same for `invapi_convert_cii_to_json`. -/
theorem ciiToJsonBody_reads_file (p c : String) (env : Env)
    (hp : p ≠ "") (hr : env.readFileAsString p = .ok c) (hc : c ≠ "") :
    ciiToJsonBody none (some p) env =
      (env.postXmlGetJson "/api/v1/cii/json" c).map
        (fun result => { content := [textContent (jsonStringify result)] }) := by
  cases ha : env.postXmlGetJson "/api/v1/cii/json" c <;>
    simp [ciiToJsonBody, hp, hr, hc, ha, Except.map, Bind.bind, Except.bind,
      pure, Except.pure]

/-- When inline xml is empty or absent, `invapi_validate_ubl` reads the given
non-empty file path and uses its (non-empty) content as the request body. -/
theorem validateUblBody_reads_file (xml : Option String) (p c : String) (env : Env)
    (hx : strTruthy xml = false) (hp : p ≠ "")
    (hr : env.readFileAsString p = .ok c) (hc : c ≠ "") :
    validateUblBody xml (some p) env =
      (env.postXmlValidate "/api/v1/ubl/validate" c).map
        (fun result => { content := [textContent (formatValidationResult result)] }) := by
  cases ha : env.postXmlValidate "/api/v1/ubl/validate" c <;>
    simp [validateUblBody, resolveXmlInput, hx, hp, hr, hc, ha, Except.map,
      Bind.bind, Except.bind, pure, Except.pure]

/-- Same for `invapi_validate_cii`. -/
theorem validateCiiBody_reads_file (xml : Option String) (p c : String) (env : Env)
    (hx : strTruthy xml = false) (hp : p ≠ "")
    (hr : env.readFileAsString p = .ok c) (hc : c ≠ "") :
    validateCiiBody xml (some p) env =
      (env.postXmlValidate "/api/v1/cii/validate" c).map
        (fun result => { content := [textContent (formatValidationResult result)] }) := by
  cases ha : env.postXmlValidate "/api/v1/cii/validate" c <;>
    simp [validateCiiBody, resolveXmlInput, hx, hp, hr, hc, ha, Except.map,
      Bind.bind, Except.bind, pure, Except.pure]

/-- Same for `invapi_validate_xml`. -/
theorem validateXmlBody_reads_file (xml : Option String) (p c : String) (env : Env)
    (hx : strTruthy xml = false) (hp : p ≠ "")
    (hr : env.readFileAsString p = .ok c) (hc : c ≠ "") :
    validateXmlBody xml (some p) env =
      (env.postXmlValidate "/api/v1/xml/validate" c).map
        (fun result => { content := [textContent (formatValidationResult result)] }) := by
  cases ha : env.postXmlValidate "/api/v1/xml/validate" c <;>
    simp [validateXmlBody, resolveXmlInput, hx, hp, hr, hc, ha, Except.map,
      Bind.bind, Except.bind, pure, Except.pure]

/-- An environment whose file read returns a fixed non-empty XML document. -/
def envC2 : Env :=
  { baseEnv with
    readFileAsString := fun _ => .ok "<Invoice/>",
    postXmlGetJson := fun _ _ => .ok Json.null }

/-- An environment whose file read returns the empty string. -/
def envC2empty : Env :=
  { baseEnv with readFileAsString := fun _ => .ok "" }

/-- Counterexample to C2 as stated: calling `invapi_convert_ubl_to_json` with
inline xml supplied as the empty string AND a readable non-empty file path
still returns the "Provide either" error — although a file path is given, the
file is never read (the result is identical under an environment whose file
read fails), and its content is never used as the request body. -/
theorem claim_C2_counterexample :
    invapiConvertUblToJson (some "") (some "f.xml") envC2 = provideEitherResult ∧
    envC2.readFileAsString "f.xml" = .ok "<Invoice/>" ∧
    invapiConvertUblToJson (some "") (some "f.xml") baseEnv = provideEitherResult := by
  refine ⟨rfl, rfl, rfl⟩

/-- C2 (amended): each XML-input tool returns the local "Provide either"
error exactly when the resolved content is empty or absent — for the
conversion tools when inline `xml` is the empty string, or `xml` is absent
and either no non-empty `file_path` is given or the file's content is empty;
for the validation tools when inline `xml` is empty-or-absent under the same
file conditions.  Whenever the handler falls through to a non-empty
`file_path` (inline `xml` absent for conversion tools, empty-or-absent for
validation tools) and the file's content is non-empty, that content is read
and used as the request body. -/
theorem claim_C2_provide_either_and_file_use (xml fp : Option String)
    (p c : String) (env : Env) :
    (ublToJsonBody xml fp env = .ok provideEitherResult ↔
      xml = some "" ∨ (xml = none ∧ (strTruthy fp = false ∨
        ∃ q, fp = some q ∧ q ≠ "" ∧ env.readFileAsString q = .ok ""))) ∧
    (ciiToJsonBody xml fp env = .ok provideEitherResult ↔
      xml = some "" ∨ (xml = none ∧ (strTruthy fp = false ∨
        ∃ q, fp = some q ∧ q ≠ "" ∧ env.readFileAsString q = .ok ""))) ∧
    (validateUblBody xml fp env = .ok provideEitherResult ↔
      strTruthy xml = false ∧ (strTruthy fp = false ∨
        ∃ q, fp = some q ∧ q ≠ "" ∧ env.readFileAsString q = .ok "")) ∧
    (validateCiiBody xml fp env = .ok provideEitherResult ↔
      strTruthy xml = false ∧ (strTruthy fp = false ∨
        ∃ q, fp = some q ∧ q ≠ "" ∧ env.readFileAsString q = .ok "")) ∧
    (validateXmlBody xml fp env = .ok provideEitherResult ↔
      strTruthy xml = false ∧ (strTruthy fp = false ∨
        ∃ q, fp = some q ∧ q ≠ "" ∧ env.readFileAsString q = .ok "")) ∧
    (p ≠ "" → env.readFileAsString p = .ok c → c ≠ "" →
      ublToJsonBody none (some p) env =
        (env.postXmlGetJson "/api/v1/ubl/json" c).map
          (fun result => { content := [textContent (jsonStringify result)] })) ∧
    (p ≠ "" → env.readFileAsString p = .ok c → c ≠ "" →
      ciiToJsonBody none (some p) env =
        (env.postXmlGetJson "/api/v1/cii/json" c).map
          (fun result => { content := [textContent (jsonStringify result)] })) ∧
    (strTruthy xml = false → p ≠ "" → env.readFileAsString p = .ok c → c ≠ "" →
      validateUblBody xml (some p) env =
        (env.postXmlValidate "/api/v1/ubl/validate" c).map
          (fun result => { content := [textContent (formatValidationResult result)] })) ∧
    (strTruthy xml = false → p ≠ "" → env.readFileAsString p = .ok c → c ≠ "" →
      validateCiiBody xml (some p) env =
        (env.postXmlValidate "/api/v1/cii/validate" c).map
          (fun result => { content := [textContent (formatValidationResult result)] })) ∧
    (strTruthy xml = false → p ≠ "" → env.readFileAsString p = .ok c → c ≠ "" →
      validateXmlBody xml (some p) env =
        (env.postXmlValidate "/api/v1/xml/validate" c).map
          (fun result => { content := [textContent (formatValidationResult result)] })) := by
  refine ⟨ublToJsonBody_provide_either_iff xml fp env,
    ciiToJsonBody_provide_either_iff xml fp env,
    validateUblBody_provide_either_iff xml fp env,
    validateCiiBody_provide_either_iff xml fp env,
    validateXmlBody_provide_either_iff xml fp env,
    fun hp hr hc => ublToJsonBody_reads_file p c env hp hr hc,
    fun hp hr hc => ciiToJsonBody_reads_file p c env hp hr hc,
    fun hx hp hr hc => validateUblBody_reads_file xml p c env hx hp hr hc,
    fun hx hp hr hc => validateCiiBody_reads_file xml p c env hx hp hr hc,
    fun hx hp hr hc => validateXmlBody_reads_file xml p c env hx hp hr hc⟩

/-- Witness for C2: an empty file yields the "Provide either" result through
the file branch, and a non-empty file's content becomes the request body. -/
theorem claim_C2_witness :
    validateUblBody none (some "f.xml") envC2empty = .ok provideEitherResult ∧
    validateUblBody none (some "f.xml") envC2 =
      (envC2.postXmlValidate "/api/v1/ubl/validate" "<Invoice/>").map
        (fun result => { content := [textContent (formatValidationResult result)] }) := by
  constructor
  · exact (claim_C2_provide_either_and_file_use none (some "f.xml") "f.xml" ""
      envC2empty).2.2.1.mpr ⟨rfl, Or.inr ⟨"f.xml", rfl, by decide, rfl⟩⟩
  · exact (claim_C2_provide_either_and_file_use none (some "f.xml") "f.xml" "<Invoice/>"
      envC2).2.2.2.2.2.2.2.1 rfl (by decide) rfl (by decide)

-- ── Claim C10: non-empty inline xml takes precedence ──

/-- An environment with both a readable file and a working conversion
endpoint, used to witness inline-xml precedence. -/
def envC10 : Env :=
  { baseEnv with
    readFileAsString := fun _ => .ok "<FromFile/>",
    postXmlGetJson := fun _ _ => .ok (Json.str "parsed") }

/-- C10: for every XML-input tool, a non-empty inline `xml` becomes the
request body: the result is the API call on the inline string, independent of
`file_path` and of the file oracle — replacing the file oracle and dropping
`file_path` leaves each handler's result unchanged, so the file is never
read. -/
theorem claim_C10_inline_precedence (s : String) (fp : Option String)
    (env : Env) (fs2 : String → Exc String) (hs : s ≠ "") :
    (ublToJsonBody (some s) fp env =
      (env.postXmlGetJson "/api/v1/ubl/json" s).map
        (fun result => { content := [textContent (jsonStringify result)] })) ∧
    (ciiToJsonBody (some s) fp env =
      (env.postXmlGetJson "/api/v1/cii/json" s).map
        (fun result => { content := [textContent (jsonStringify result)] })) ∧
    (validateUblBody (some s) fp env =
      (env.postXmlValidate "/api/v1/ubl/validate" s).map
        (fun result => { content := [textContent (formatValidationResult result)] })) ∧
    (validateCiiBody (some s) fp env =
      (env.postXmlValidate "/api/v1/cii/validate" s).map
        (fun result => { content := [textContent (formatValidationResult result)] })) ∧
    (validateXmlBody (some s) fp env =
      (env.postXmlValidate "/api/v1/xml/validate" s).map
        (fun result => { content := [textContent (formatValidationResult result)] })) ∧
    (invapiConvertUblToJson (some s) fp { env with readFileAsString := fs2 } =
      invapiConvertUblToJson (some s) none env) ∧
    (invapiConvertCiiToJson (some s) fp { env with readFileAsString := fs2 } =
      invapiConvertCiiToJson (some s) none env) ∧
    (invapiValidateUbl (some s) fp { env with readFileAsString := fs2 } =
      invapiValidateUbl (some s) none env) ∧
    (invapiValidateCii (some s) fp { env with readFileAsString := fs2 } =
      invapiValidateCii (some s) none env) ∧
    (invapiValidateXml (some s) fp { env with readFileAsString := fs2 } =
      invapiValidateXml (some s) none env) := by
  have hubl : ∀ (fq : Option String) (env' : Env),
      ublToJsonBody (some s) fq env' =
        (env'.postXmlGetJson "/api/v1/ubl/json" s).map
          (fun result => { content := [textContent (jsonStringify result)] }) := by
    intro fq env'
    cases ha : env'.postXmlGetJson "/api/v1/ubl/json" s <;>
      simp [ublToJsonBody, hs, ha, Except.map, Bind.bind, Except.bind, pure, Except.pure]
  have hcii : ∀ (fq : Option String) (env' : Env),
      ciiToJsonBody (some s) fq env' =
        (env'.postXmlGetJson "/api/v1/cii/json" s).map
          (fun result => { content := [textContent (jsonStringify result)] }) := by
    intro fq env'
    cases ha : env'.postXmlGetJson "/api/v1/cii/json" s <;>
      simp [ciiToJsonBody, hs, ha, Except.map, Bind.bind, Except.bind, pure, Except.pure]
  have hvubl : ∀ (fq : Option String) (env' : Env),
      validateUblBody (some s) fq env' =
        (env'.postXmlValidate "/api/v1/ubl/validate" s).map
          (fun result => { content := [textContent (formatValidationResult result)] }) := by
    intro fq env'
    cases ha : env'.postXmlValidate "/api/v1/ubl/validate" s <;>
      simp [validateUblBody, resolveXmlInput, strTruthy, hs, ha, Except.map,
        Bind.bind, Except.bind, pure, Except.pure]
  have hvcii : ∀ (fq : Option String) (env' : Env),
      validateCiiBody (some s) fq env' =
        (env'.postXmlValidate "/api/v1/cii/validate" s).map
          (fun result => { content := [textContent (formatValidationResult result)] }) := by
    intro fq env'
    cases ha : env'.postXmlValidate "/api/v1/cii/validate" s <;>
      simp [validateCiiBody, resolveXmlInput, strTruthy, hs, ha, Except.map,
        Bind.bind, Except.bind, pure, Except.pure]
  have hvxml : ∀ (fq : Option String) (env' : Env),
      validateXmlBody (some s) fq env' =
        (env'.postXmlValidate "/api/v1/xml/validate" s).map
          (fun result => { content := [textContent (formatValidationResult result)] }) := by
    intro fq env'
    cases ha : env'.postXmlValidate "/api/v1/xml/validate" s <;>
      simp [validateXmlBody, resolveXmlInput, strTruthy, hs, ha, Except.map,
        Bind.bind, Except.bind, pure, Except.pure]
  refine ⟨hubl fp env, hcii fp env, hvubl fp env, hvcii fp env, hvxml fp env,
    ?_, ?_, ?_, ?_, ?_⟩
  · show runTool _ = runTool _
    rw [hubl fp { env with readFileAsString := fs2 }, hubl none env]
  · show runTool _ = runTool _
    rw [hcii fp { env with readFileAsString := fs2 }, hcii none env]
  · show runTool _ = runTool _
    rw [hvubl fp { env with readFileAsString := fs2 }, hvubl none env]
  · show runTool _ = runTool _
    rw [hvcii fp { env with readFileAsString := fs2 }, hvcii none env]
  · show runTool _ = runTool _
    rw [hvxml fp { env with readFileAsString := fs2 }, hvxml none env]

/-- Witness for C10: with both inline xml and a readable file supplied, the
conversion result is the API response for the inline string. -/
theorem claim_C10_witness :
    ublToJsonBody (some "<Inline/>") (some "other.xml") envC10 =
      .ok { content := [textContent (jsonStringify (Json.str "parsed"))], isError := false } := by
  have h := (claim_C10_inline_precedence "<Inline/>" (some "other.xml") envC10
    (fun _ => .ok "ignored") (by decide)).1
  rw [h]
  rfl

-- ── Claim C7: every handler failure is caught ──

/-- C7: for each of the fourteen tool handlers, whenever the body raises any
failure — file read, transport call, or response processing — the registered
handler returns the classifier's text with the error flag set; the failure
never escapes the handler. -/
theorem claim_C7_handlers_catch (e : JsError) (env : Env) (invoice : Json)
    (invoices : List Json) (xml fp instructions : Option String)
    (p q : String) (qr : Bool) (parties categories : Option (List Json))
    (operations : List BatchOperation) :
    (jsonToUblBody invoice fp env = .error e →
      invapiConvertJsonToUbl invoice fp env = errorResult e) ∧
    (jsonToCiiBody invoice fp env = .error e →
      invapiConvertJsonToCii invoice fp env = errorResult e) ∧
    (ublToJsonBody xml fp env = .error e →
      invapiConvertUblToJson xml fp env = errorResult e) ∧
    (ciiToJsonBody xml fp env = .error e →
      invapiConvertCiiToJson xml fp env = errorResult e) ∧
    (jsonToXlsxBody invoices p env = .error e →
      invapiConvertJsonToXlsx invoices p env = errorResult e) ∧
    (createZugferdBody p invoice q env = .error e →
      invapiCreateZugferdPdf p invoice q env = errorResult e) ∧
    (zugferdToJsonBody p env = .error e →
      invapiConvertZugferdToJson p env = errorResult e) ∧
    (validateUblBody xml fp env = .error e →
      invapiValidateUbl xml fp env = errorResult e) ∧
    (validateCiiBody xml fp env = .error e →
      invapiValidateCii xml fp env = errorResult e) ∧
    (validateXmlBody xml fp env = .error e →
      invapiValidateXml xml fp env = errorResult e) ∧
    (extractInvoiceBody p qr parties instructions categories env = .error e →
      invapiExtractInvoice p qr parties instructions categories env = errorResult e) ∧
    (extractQrBody p env = .error e →
      invapiExtractQr p env = errorResult e) ∧
    (getUserBody env = .error e →
      invapiGetUser env = errorResult e) ∧
    (batchConvertBody operations env = .error e →
      invapiBatchConvert operations env = errorResult e) ∧
    errorResult e = { content := [textContent (handleApiError e)], isError := true } := by
  refine ⟨?_, ?_, ?_, ?_, ?_, ?_, ?_, ?_, ?_, ?_, ?_, ?_, ?_, ?_, rfl⟩ <;>
    intro h <;>
    simp [invapiConvertJsonToUbl, invapiConvertJsonToCii, invapiConvertUblToJson,
      invapiConvertCiiToJson, invapiConvertJsonToXlsx, invapiCreateZugferdPdf,
      invapiConvertZugferdToJson, invapiValidateUbl, invapiValidateCii,
      invapiValidateXml, invapiExtractInvoice, invapiExtractQr, invapiGetUser,
      invapiBatchConvert, runTool, h]

/-- Witness for C7: under the all-failing environment, the user tool's body
raises and the handler returns the flagged classifier result. -/
theorem claim_C7_witness :
    invapiGetUser baseEnv = errorResult envBoomErr ∧
    invapiGetUser baseEnv =
      { content := [textContent "Error: boom"], isError := true } := by
  have h := (claim_C7_handlers_catch envBoomErr baseEnv Json.null [] none none none
    "" "" false none none []).2.2.2.2.2.2.2.2.2.2.2.2.1 rfl
  exact ⟨h, by rw [h]; rfl⟩

-- ── Claim C8: the batch length constraint ──

/-- C8: a batch-operation array of length 0 or more than 100 is rejected by
the declared input schema, so the handler never runs — the dispatch result is
the schema rejection, independent of every oracle, and no network call is
attempted; every length between 1 and 100 passes the length constraint. -/
theorem claim_C8_batch_length (operations : List BatchOperation) :
    ((operations.length = 0 ∨ 100 < operations.length) →
      batchInputAccepted operations = false ∧
      (∀ env : Env, dispatchBatchConvert operations env = schemaRejection) ∧
      (∀ env1 env2 : Env,
        dispatchBatchConvert operations env1 = dispatchBatchConvert operations env2)) ∧
    (1 ≤ operations.length → operations.length ≤ 100 →
      batchInputAccepted operations = true) := by
  constructor
  · intro h
    have hacc : batchInputAccepted operations = false := by
      simp only [batchInputAccepted, zodArrayLengthOk, Bool.and_eq_false_iff]
      rcases h with h | h
      · left
        simp [h]
      · right
        simp only [decide_eq_false_iff_not]
        omega
    refine ⟨hacc, fun env => ?_, fun env1 env2 => ?_⟩
    · simp [dispatchBatchConvert, hacc]
    · simp [dispatchBatchConvert, hacc]
  · intro h1 h2
    simp only [batchInputAccepted, zodArrayLengthOk, Bool.and_eq_true, decide_eq_true_eq]
    exact ⟨h1, h2⟩

/-- Witness for C8: the empty array is rejected without touching any oracle,
and a singleton array passes the length constraint. -/
theorem claim_C8_witness :
    dispatchBatchConvert [] baseEnv = schemaRejection ∧
    batchInputAccepted [⟨"a", BatchOpKind.ubl_to_json, Json.str "<x/>"⟩] = true := by
  constructor
  · exact ((claim_C8_batch_length []).1 (Or.inl rfl)).2.1 baseEnv
  · exact (claim_C8_batch_length [⟨"a", BatchOpKind.ubl_to_json, Json.str "<x/>"⟩]).2
      (by decide) (by decide)

-- ── Claim C1: batch result rendering ──

/-- The lines a single batch entry contributes to the rendering: its own
OK/FAILED line followed by the blank spacer line. -/
def entryLines (r : BatchResultEntry) : Exc (List String) :=
  if r.success then
    (previewOf r.output).map (fun preview => ["[" ++ r.id ++ "] OK: " ++ preview, ""])
  else
    pure ["[" ++ r.id ++ "] FAILED: " ++ r.error.getD "Unknown error", ""]

/-- The concatenation of every entry's own lines, each computed independently
of the other entries. -/
def entriesLines : List BatchResultEntry → Exc (List String)
  | [] => pure []
  | r :: rest => do
    let first ← entryLines r
    let others ← entriesLines rest
    pure (first ++ others)

/-- The rendering loop is compositional: it produces the accumulator followed
by each entry's own lines in order. -/
theorem renderBatchLoop_decompose (rs : List BatchResultEntry) (acc : List String) :
    renderBatchLoop rs acc = (entriesLines rs).map (fun ls => acc ++ ls) := by
  induction rs generalizing acc with
  | nil => simp [renderBatchLoop, entriesLines, Except.map, pure, Except.pure]
  | cons r rest ih =>
    cases hsucc : r.success with
    | true =>
      cases hpv : previewOf r.output with
      | error e =>
        simp [renderBatchLoop, entriesLines, entryLines, hsucc, hpv, Except.map,
          Bind.bind, Except.bind, pure, Except.pure]
      | ok pv =>
        cases hrest : entriesLines rest with
        | error e2 =>
          simp [renderBatchLoop, entriesLines, entryLines, hsucc, hpv, hrest, ih,
            Except.map, Bind.bind, Except.bind, pure, Except.pure]
        | ok os =>
          simp [renderBatchLoop, entriesLines, entryLines, hsucc, hpv, hrest, ih,
            Except.map, Bind.bind, Except.bind, pure, Except.pure]
    | false =>
      cases hrest : entriesLines rest with
      | error e2 =>
        simp [renderBatchLoop, entriesLines, entryLines, hsucc, hrest, ih,
          Except.map, Bind.bind, Except.bind, pure, Except.pure]
      | ok os =>
        simp [renderBatchLoop, entriesLines, entryLines, hsucc, hrest, ih,
          Except.map, Bind.bind, Except.bind, pure, Except.pure]

/-- A present output always has a preview. -/
theorem previewOf_isSome (o : Option Json) (h : o.isSome = true) :
    ∃ preview, previewOf o = .ok preview := by
  cases o with
  | none => simp at h
  | some j => cases j <;> exact ⟨_, rfl⟩

/-- When every successful entry carries an output, the per-entry rendering
succeeds and contains each entry's own OK/FAILED line. -/
theorem entriesLines_ok_of_outputs (rs : List BatchResultEntry)
    (h : ∀ r ∈ rs, r.success = true → r.output.isSome = true) :
    ∃ ls, entriesLines rs = .ok ls ∧
      ∀ r ∈ rs,
        (r.success = true → ∃ preview, previewOf r.output = .ok preview ∧
          ("[" ++ r.id ++ "] OK: " ++ preview) ∈ ls) ∧
        (r.success = false →
          ("[" ++ r.id ++ "] FAILED: " ++ r.error.getD "Unknown error") ∈ ls) := by
  induction rs with
  | nil => exact ⟨[], rfl, by simp⟩
  | cons r rest ih =>
    obtain ⟨ls, hls, hmem⟩ := ih (fun x hx hs => h x (List.mem_cons_of_mem r hx) hs)
    cases hsucc : r.success with
    | true =>
      obtain ⟨preview, hpv⟩ := previewOf_isSome r.output
        (h r (List.mem_cons_self r rest) hsucc)
      refine ⟨["[" ++ r.id ++ "] OK: " ++ preview, ""] ++ ls, ?_, ?_⟩
      · simp [entriesLines, entryLines, hsucc, hpv, hls, Except.map,
          Bind.bind, Except.bind, pure, Except.pure]
      · intro x hx
        rcases List.mem_cons.mp hx with rfl | hx'
        · refine ⟨fun _ => ⟨preview, hpv, ?_⟩, fun hf => ?_⟩
          · simp
          · rw [hsucc] at hf
            exact absurd hf (by simp)
        · refine ⟨fun hxs => ?_, fun hxf => ?_⟩
          · obtain ⟨pv2, hpv2, hin⟩ := (hmem x hx').1 hxs
            exact ⟨pv2, hpv2, by simp [hin]⟩
          · have hin := (hmem x hx').2 hxf
            simp [hin]
    | false =>
      refine ⟨["[" ++ r.id ++ "] FAILED: " ++ r.error.getD "Unknown error", ""] ++ ls, ?_, ?_⟩
      · simp [entriesLines, entryLines, hsucc, hls, Except.map,
          Bind.bind, Except.bind, pure, Except.pure]
      · intro x hx
        rcases List.mem_cons.mp hx with rfl | hx'
        · refine ⟨fun hs => ?_, fun _ => ?_⟩
          · rw [hsucc] at hs
            exact absurd hs (by simp)
          · simp
        · refine ⟨fun hxs => ?_, fun hxf => ?_⟩
          · obtain ⟨pv2, hpv2, hin⟩ := (hmem x hx').1 hxs
            exact ⟨pv2, hpv2, by simp [hin]⟩
          · have hin := (hmem x hx').2 hxf
            simp [hin]

/-- C1 (amended): for every batch response in which every successful result
entry carries an output value, the rendering succeeds; its first line is the
header built from the response's own summary counts; every successful entry
contributes its own OK line and every failed entry its own FAILED line, each
entry's lines determined only by that entry (the line list decomposes into
the concatenation of `entryLines` over the entries); and the handler returns
exactly the joined lines when the endpoint returns this response. -/
theorem claim_C1_batch_rendering (result : BatchResult)
    (houtputs : ∀ r ∈ result.results, r.success = true → r.output.isSome = true) :
    ∃ lines,
      batchLines result = .ok lines ∧
      (∀ (operations : List BatchOperation) (env : Env),
        env.postBatchConvert "/api/v1/batch/convert"
            (Json.obj [("operations", Json.arr (operations.map BatchOperation.toJson))]) =
          .ok result →
        invapiBatchConvert operations env =
          { content := [textContent (joinWith "\n" lines)], isError := false }) ∧
      lines.head? = some (batchHeader result.summary) ∧
      (∀ r ∈ result.results,
        (r.success = true → ∃ preview, previewOf r.output = .ok preview ∧
          ("[" ++ r.id ++ "] OK: " ++ preview) ∈ lines) ∧
        (r.success = false →
          ("[" ++ r.id ++ "] FAILED: " ++ r.error.getD "Unknown error") ∈ lines)) ∧
      batchLines result =
        (entriesLines result.results).map
          (fun ls => batchHeader result.summary :: "" :: ls) := by
  obtain ⟨ls, hls, hmem⟩ := entriesLines_ok_of_outputs result.results houtputs
  have hdec : batchLines result =
      (entriesLines result.results).map
        (fun l => batchHeader result.summary :: "" :: l) :=
    renderBatchLoop_decompose result.results [batchHeader result.summary, ""]
  have hlines : batchLines result = .ok (batchHeader result.summary :: "" :: ls) := by
    rw [hdec, hls]
    rfl
  refine ⟨batchHeader result.summary :: "" :: ls, hlines, ?_, rfl, ?_, hdec⟩
  · intro operations env happ
    simp [invapiBatchConvert, runTool, batchConvertBody, happ, hlines,
      Bind.bind, Except.bind, pure, Except.pure]
  · intro r hr
    refine ⟨fun hs => ?_, fun hf => ?_⟩
    · obtain ⟨preview, hpv, hin⟩ := (hmem r hr).1 hs
      exact ⟨preview, hpv, by simp [hin]⟩
    · have hin := (hmem r hr).2 hf
      simp [hin]

/-- An environment whose batch endpoint reports `a` successful (but with no
output value) and `b` failed. -/
def envC1 : Env :=
  { baseEnv with
    postBatchConvert := fun _ _ => .ok
      { results := [⟨"a", true, none, none⟩, ⟨"b", false, none, some "bad xml"⟩],
        summary := ⟨2, 1, 1, 5⟩ } }

/-- Counterexample to C1 as stated: for a batch response in which `a` is
reported successful (with no output value, which the response type permits)
and `b` is reported failed, the handler's rendering crashes on
`JSON.stringify(undefined).slice` and the whole result is the caught
`TypeError` — it contains neither an OK line for `a` nor a FAILED line for
`b`. -/
theorem claim_C1_counterexample :
    invapiBatchConvert [⟨"a", BatchOpKind.ubl_to_json, Json.str "<x/>"⟩,
        ⟨"b", BatchOpKind.cii_to_json, Json.str "<y/>"⟩] envC1 =
      errorResult typeErrorSliceOfUndefined ∧
    occursIn "OK" (handleApiError typeErrorSliceOfUndefined) = false ∧
    occursIn "FAILED" (handleApiError typeErrorSliceOfUndefined) = false := by
  exact ⟨rfl, rfl, rfl⟩

/-- A well-formed batch response: `a` successful with a string output, `b`
failed with a reason. -/
def batchResultC1 : BatchResult :=
  { results := [⟨"a", true, some (Json.str "<ubl/>"), none⟩,
      ⟨"b", false, none, some "Invalid XML"⟩],
    summary := ⟨2, 1, 1, 42⟩ }

/-- Witness for C1 at the concrete response: the rendering succeeds, starts
with the summary header, and contains the OK line for `a` and the FAILED line
for `b`. -/
theorem claim_C1_witness :
    ∃ lines, batchLines batchResultC1 = .ok lines ∧
      lines.head? = some (batchHeader batchResultC1.summary) ∧
      ("[a] OK: <ubl/>" ∈ lines) ∧ ("[b] FAILED: Invalid XML" ∈ lines) := by
  obtain ⟨lines, hok, _, hhead, hmem, _⟩ :=
    claim_C1_batch_rendering batchResultC1 (by
      intro r hr hs
      simp only [batchResultC1, List.mem_cons, List.not_mem_nil, or_false] at hr
      rcases hr with rfl | rfl
      · rfl
      · exact absurd hs (by simp))
  refine ⟨lines, hok, hhead, ?_, ?_⟩
  · have h := (hmem ⟨"a", true, some (Json.str "<ubl/>"), none⟩
      (by simp [batchResultC1])).1 rfl
    obtain ⟨preview, hpv, hin⟩ := h
    have hpv2 : previewOf (some (Json.str "<ubl/>")) = .ok "<ubl/>" := by rfl
    rw [hpv2] at hpv
    injection hpv with hpveq
    rw [← hpveq] at hin
    exact hin
  · have hin := (hmem ⟨"b", false, none, some "Invalid XML"⟩
      (by simp [batchResultC1])).2 rfl
    exact hin
